import Mathlib

/-!
Verification development for the Oberon compiler front-end code model
(`src/ObxAst.h`) and the ObsFiles runtime shims (`src/unnamed/part_001`).
Definitions are shallow embeddings of the C++ declarations; components whose
implementation is not part of the excerpt (type resolver, expression checker,
`Scope::add`) are modelled from the specification and marked as such.
-/

namespace Obx

/-- Shallow embedding of `BinExpr::Op` from `src/ObxAst.h` lines 622-631:
`Invalid, Range, EQ, NEQ, LT, LEQ, GT, GEQ, IN, IS, ADD, SUB, OR,
MUL, FDIV, DIV, MOD, AND`. -/
inductive BinOp
| Invalid
| Range
| EQ | NEQ | LT | LEQ | GT | GEQ | IN | IS
| ADD | SUB | OR
| MUL | FDIV | DIV | MOD | AND
deriving DecidableEq

/-- The operator set claimed by the spec sentence: range, the six relations,
IN, IS, the add operators (+, -, OR) and the mul operators (*, DIV, MOD, &).
Note this list omits `FDIV` (real division '/'), which the source enum has. -/
def BinOp.inClaimedSet : BinOp → Bool
| .Range => true
| .EQ => true | .NEQ => true | .LT => true | .LEQ => true
| .GT => true | .GEQ => true | .IN => true | .IS => true
| .ADD => true | .SUB => true | .OR => true
| .MUL => true | .DIV => true | .MOD => true | .AND => true
| _ => false

/-- The amended operator set: the claimed set plus real division `FDIV` ('/'),
matching the source enum exactly (everything except the `Invalid` tag). -/
def BinOp.inAmendedSet : BinOp → Bool
| .Invalid => false
| _ => true

/-- A well-formed `BinExpr` node carries an operator other than the default
`Invalid` tag (`BinExpr():d_op(Invalid)` in the source). -/
def BinOp.wellFormed (o : BinOp) : Bool := o ≠ BinOp.Invalid

/-- Shallow embedding of the `BaseType` kind enum from `src/ObxAst.h`
lines 188-189: `ANY, NIL, STRING, WSTRING, BOOLEAN, CHAR, WCHAR, BYTE,
SHORTINT, INTEGER, LONGINT, REAL, LONGREAL, SET`. -/
inductive BaseKind
| ANY | NIL | STRING | WSTRING | BOOLEAN | CHAR | WCHAR | BYTE
| SHORTINT | INTEGER | LONGINT | REAL | LONGREAL | SET
deriving DecidableEq

/-- The numeric value each enumerator receives in the C++ enum
(consecutive from 0). -/
def BaseKind.toCode : BaseKind → Nat
| .ANY => 0 | .NIL => 1 | .STRING => 2 | .WSTRING => 3
| .BOOLEAN => 4 | .CHAR => 5 | .WCHAR => 6 | .BYTE => 7
| .SHORTINT => 8 | .INTEGER => 9 | .LONGINT => 10 | .REAL => 11
| .LONGREAL => 12 | .SET => 13

/-- The fourteen primitive kinds in enum order. -/
def baseKindList : List BaseKind :=
[.ANY, .NIL, .STRING, .WSTRING, .BOOLEAN, .CHAR, .WCHAR, .BYTE,
 .SHORTINT, .INTEGER, .LONGINT, .REAL, .LONGREAL, .SET]

/-- A `BaseType` node: `Type::d_type` is a 4-bit bitfield (`uint d_type : 4`),
so the stored tag is the constructor argument reduced mod 16. -/
structure BaseTypeM where
  d_type : Nat
deriving DecidableEq

/-- The `BaseType(quint8 t = NIL)` constructor: stores `t` into the
4-bit `d_type` field. -/
def mkBaseType (t : Nat) : BaseTypeM := ⟨t % 16⟩

/-- Embedding of `Parameter` from `src/ObxAst.h` lines 338-347: the three
flags `d_var` (by-reference), `d_const` (by-const-reference),
`d_receiver`. -/
structure ParameterM where
  d_var : Bool
  d_const : Bool
  d_receiver : Bool
deriving DecidableEq

/-- `Parameter::isVarParam() { return ( d_var || d_const ); }` -/
def ParameterM.isVarParam (p : ParameterM) : Bool := p.d_var || p.d_const

/-- The concrete `Named` subclasses of `src/ObxAst.h` that are not
`Parameter`; each inherits `Named::isVarParam() { return false; }`. -/
inductive NamedEntity
| field
| variableN
| localVar
| constN
| namedType
| procedure
| importN
| builtIn
| genericName
| moduleN
| parameter (p : ParameterM)

/-- Virtual dispatch of `isVarParam`: only `Parameter` overrides the
base-class `false`. -/
def NamedEntity.isVarParam : NamedEntity → Bool
| .parameter p => p.isVarParam
| _ => false

/-- `Literal::SET_BIT_LEN = 32` from `src/ObxAst.h` line 548. -/
def SET_BIT_LEN : Nat := 32

/-- A value of `Literal::SET = std::bitset<SET_BIT_LEN>`: a fixed-width
32-bit bitset, embedded as a natural number below `2 ^ SET_BIT_LEN`. -/
structure SetVal where
  val : Nat
  isLt : val < 2 ^ SET_BIT_LEN

/-- Bit membership in a set value (`std::bitset::test`). -/
def SetVal.mem (s : SetVal) (i : Nat) : Bool := s.val.testBit i

/-- The in-memory file buffer behind a `FileBuffer` slot: a `QBuffer` over a
byte array, with a current position.  `QBuffer::seek(p)` succeeds exactly
when `0 ≤ p ≤ size`. -/
structure QBufferM where
  size : Nat
  pos : Nat
deriving DecidableEq

/-- `QBuffer::seek`: fails (returns the buffer unchanged) when the requested
position is negative or past the end of the data; otherwise repositions. -/
def QBufferM.seek (b : QBufferM) (p : Int) : Option QBufferM :=
  if 0 ≤ p ∧ p ≤ (b.size : Int) then some { b with pos := p.toNat } else none

/-- Embedding of `ObsFiles_setPos` (`src/unnamed/part_001` lines 762-776):
if the buffer is present, clamp a negative `pos` to 0, then seek; return
false when the buffer is absent or the seek fails, true otherwise. -/
def ObsFiles_setPos (fb : Option QBufferM) (pos : Int) : Bool × Option QBufferM :=
  match fb with
  | none => (false, none)
  | some b =>
    let pos' := if pos < 0 then 0 else pos
    match b.seek pos' with
    | none => (false, some b)
    | some b' => (true, some b')

/-- A small constant-expression language (literals and the arithmetic
`BinExpr`/`UnExpr` forms the checker folds at compile time). -/
inductive ExprM
| literal (v : Int)
| identLeaf (name : String)
| identSel (sub : ExprM) (name : String)
| neg (sub : ExprM)
| binExpr (op : BinOp) (lhs rhs : ExprM)
deriving DecidableEq

/-- Modelled from the spec: compile-time evaluation of integer constant
expressions (the evaluator behind `Const` folding, `FOR` step values and
array lengths is not part of the excerpt).  Only literal arithmetic over
`+`, `-`, `*` and unary negation folds; anything else is not a compile-time
integer constant. -/
def evalConstInt : ExprM → Option Int
| .literal v => some v
| .identLeaf _ => none
| .identSel _ _ => none
| .neg e => (evalConstInt e).map (fun v => -v)
| .binExpr op l r =>
  match evalConstInt l, evalConstInt r with
  | some a, some b =>
    match op with
    | .ADD => some (a + b)
    | .SUB => some (a - b)
    | .MUL => some (a * b)
    | _ => none
  | _, _ => none

/-- The types the expression checker assigns: integer, boolean, and the
sentinel error type used for local error recovery. -/
inductive ChkTy
| intT
| boolT
| errT
deriving DecidableEq

/-- A named entity as the scope container and checker see it: name, an
identity standing for the node's address, and the declared type. -/
structure NamedM where
  d_name : String
  id : Nat
  d_ty : ChkTy
deriving DecidableEq

/-- Modelled from the spec: the `Scope` name container behind
`Scope::d_names` (`QHash<const char*, Named*>`); the `Scope::add` /
`Scope::find` bodies (ObxAst.cpp) are not part of the excerpt.  The hash is
embedded as an association list keyed by name. -/
structure ScopeM where
  d_names : List (String × NamedM)
deriving DecidableEq

/-- Lookup at one scope level (`d_names.value(name)`). -/
def ScopeM.lookupName (s : ScopeM) (name : String) : Option NamedM :=
  s.d_names.lookup name

/-- Modelled from the spec: `find(name, recursive)` searches the current
scope, then — when `recursive` — walks upward through the enclosing chain. -/
def findInChain (chain : List ScopeM) (name : String) (recursive : Bool) : Option NamedM :=
  match chain with
  | [] => none
  | s :: outer =>
    match s.lookupName name with
    | some n => some n
    | none => if recursive then findInChain outer name recursive else none

/-- Modelled from the spec: `add(entity)` fails with `duplicate-name` if the
name already exists at the same scope level; on success the entity is
entered into the scope's name map. -/
def ScopeM.add (s : ScopeM) (n : NamedM) : Option ScopeM :=
  if (s.lookupName n.d_name).isSome then none
  else some ⟨(n.d_name, n) :: s.d_names⟩

/-- Type expressions as the resolver sees them: primitives, pointers,
arrays, records, procedure types and named (`QualiType`) references. -/
inductive TyExpr
| base (k : BaseKind)
| pointer (pointee : TyExpr)
| array (elem : TyExpr)
| record (fields : List (String × BaseKind))
| procType
| quali (name : String)
deriving DecidableEq

/-- Is the type a `Record` or an `Array` (the only legal pointer bases)? -/
def TyExpr.isRecordOrArray : TyExpr → Bool
| .record _ => true
| .array _ => true
| _ => false

/-- Modelled from the spec: `Type::derefed`, which chases `QualiType`
links through the type-declaration environment until a non-qualified type
is reached.  Fuel bounds the chase so cyclic declarations terminate. -/
def derefed (env : List (String × TyExpr)) : Nat → TyExpr → Option TyExpr
| 0, _ => none
| fuel + 1, .quali name =>
  match env.lookup name with
  | some t => derefed env fuel t
  | none => none
| _ + 1, t => some t

/-- Diagnostic kinds of the type resolver that the claims mention. -/
inductive ResolveErr
| pointerBaseIllegal
| unresolvedType
| arrayLengthError
deriving DecidableEq

/-- Modelled from the spec: `resolveType(Pointer p)` — recursively resolve
`p.to`; the resolved type must be `Record` or `Array`, else
`pointer-base-illegal`. -/
def resolvePointerTo (env : List (String × TyExpr)) (fuel : Nat) (pointee : TyExpr) :
    Except ResolveErr TyExpr :=
  match derefed env fuel pointee with
  | none => .error .unresolvedType
  | some r => if r.isRecordOrArray then .ok r else .error .pointerBaseIllegal

/-- Outcome of checking a `ForLoop`'s step expression. -/
inductive ForStepResult
| stepVal (v : Int)
| errForStepZero
| errNotConst
deriving DecidableEq

/-- Modelled from the spec: the `ForLoop` step check — an absent `d_by`
defaults the step to +1; a present step must be a compile-time integer
constant, and the value zero is reported as `for-step-zero`. -/
def checkForStep (d_by : Option ExprM) : ForStepResult :=
  match d_by with
  | none => .stepVal 1
  | some e =>
    match evalConstInt e with
    | none => .errNotConst
    | some v => if v = 0 then .errForStepZero else .stepVal v

/-- An `Array` type node (`src/ObxAst.h` lines 209-221): `d_len` is zero
for open arrays; `d_lenExpr` is the declared length expression, absent for
open arrays.  `Array():d_len(0)` is the default constructor. -/
structure ArrayM where
  d_len : Nat
  d_lenExpr : Option ExprM
deriving DecidableEq

/-- The default-constructed `Array` node: `Array():d_len(0)`, no length
expression. -/
def ArrayM.default : ArrayM := ⟨0, none⟩

/-- Modelled from the spec: `resolveType(Array a)` — an open array (no
length expression) keeps `d_len = 0`; a fixed-length array whose length
expression is not a compile-time constant integer ≥ 1 is
`array-length-error`, otherwise `d_len` is set to the constant value. -/
def resolveArray (a : ArrayM) : Except ResolveErr ArrayM :=
  match a.d_lenExpr with
  | none => .ok { a with d_len := 0 }
  | some e =>
    match evalConstInt e with
    | none => .error .arrayLengthError
    | some v => if 1 ≤ v then .ok { a with d_len := v.toNat }
                else .error .arrayLengthError

/-- The annotation the checker attaches to each node: `Expression::d_type`
(nullable `NoRef<Type>`) and the node's `has-errors` mark. -/
structure Ann where
  d_type : Option ChkTy
  hasErrors : Bool
deriving DecidableEq

/-- An expression after the checker ran: the same shape as `ExprM`, with the
resolved target (`IdentLeaf::d_ident` / `IdentSel::d_ident`, nullable
`NoRef<Named>`) and the annotation filled in. -/
inductive AExpr
| literal (v : Int) (a : Ann)
| identLeaf (name : String) (d_ident : Option NamedM) (a : Ann)
| identSel (sub : AExpr) (name : String) (d_ident : Option NamedM) (a : Ann)
| neg (sub : AExpr) (a : Ann)
| binExpr (op : BinOp) (lhs rhs : AExpr) (a : Ann)
deriving DecidableEq

/-- The annotation of a checked node. -/
def AExpr.ann : AExpr → Ann
| .literal _ a => a
| .identLeaf _ _ a => a
| .identSel _ _ _ a => a
| .neg _ a => a
| .binExpr _ _ _ a => a

/-- Result type of a binary operator when both operands check as integers:
relations yield BOOLEAN, the arithmetic operators yield the numeric type. -/
def BinOp.resultTy : BinOp → ChkTy
| .EQ => .boolT | .NEQ => .boolT | .LT => .boolT | .LEQ => .boolT
| .GT => .boolT | .GEQ => .boolT | .IN => .boolT | .IS => .boolT
| _ => .intT

/-- Modelled from the spec: the expression checker (ObxValidator is not part
of the excerpt).  It resolves every identifier use against the scope chain
(`env`) and member namespace (`fields`), computes a type for every node, and
recovers from local errors by marking the node has-errors and setting the
sentinel error type, so checking continues. -/
def check (env fields : List (String × NamedM)) : ExprM → AExpr
| .literal v => .literal v ⟨some .intT, false⟩
| .identLeaf name =>
  match env.lookup name with
  | some n => .identLeaf name (some n) ⟨some n.d_ty, false⟩
  | none => .identLeaf name none ⟨some .errT, true⟩
| .identSel sub name =>
  let s := check env fields sub
  match fields.lookup name with
  | some n => .identSel s name (some n) ⟨some n.d_ty, false⟩
  | none => .identSel s name none ⟨some .errT, true⟩
| .neg sub =>
  let s := check env fields sub
  if s.ann.d_type = some .intT then .neg s ⟨some .intT, false⟩
  else .neg s ⟨some .errT, true⟩
| .binExpr op lhs rhs =>
  let l := check env fields lhs
  let r := check env fields rhs
  if l.ann.d_type = some .intT ∧ r.ann.d_type = some .intT then
    .binExpr op l r ⟨some op.resultTy, false⟩
  else .binExpr op l r ⟨some .errT, true⟩

/-- The invariant the spec promises of every node after checking: a non-null
type, and for identifier uses a non-null resolved target — with nodes marked
has-errors exempt.  Checked recursively over the whole tree. -/
def AExpr.allOk : AExpr → Bool
| .literal _ a => a.hasErrors || a.d_type.isSome
| .identLeaf _ d_ident a => a.hasErrors || (a.d_type.isSome && d_ident.isSome)
| .identSel sub _ d_ident a =>
  (a.hasErrors || (a.d_type.isSome && d_ident.isSome)) && sub.allOk
| .neg sub a => (a.hasErrors || a.d_type.isSome) && sub.allOk
| .binExpr _ lhs rhs a =>
  (a.hasErrors || a.d_type.isSome) && lhs.allOk && rhs.allOk

/-- C1: after the expression checker runs over a module, every checked
expression node carries a non-null type and every identifier use
(`IdentLeaf`, `IdentSel`) carries a non-null resolved target; only nodes
marked has-errors are exempt. -/
theorem checker_invariant_closure (env fields : List (String × NamedM)) (e : ExprM) :
    (check env fields e).allOk = true := by
  induction e with
  | literal v => simp [check, AExpr.allOk]
  | identLeaf name =>
    simp only [check]
    cases h : List.lookup name env <;> simp [h, AExpr.allOk]
  | identSel sub name ih =>
    simp only [check]
    cases h : List.lookup name fields <;> simp [h, AExpr.allOk, ih]
  | neg sub ih =>
    simp only [check]
    split <;> simp [AExpr.allOk, ih]
  | binExpr op lhs rhs ihl ihr =>
    simp only [check]
    split <;> simp [AExpr.allOk, ihl, ihr]

/-- C2 (counterexample): `FDIV` ('/') is a well-formed `BinExpr` operator of
the source enum, yet it is in none of the operator groups the claim lists,
refuting "the set consists exactly of range, the six relations, IN, IS, the
add operators and the mul operators (*, DIV, MOD, &)". -/
theorem binexpr_claimed_ops_counterexample :
    BinOp.wellFormed BinOp.FDIV = true ∧ BinOp.inClaimedSet BinOp.FDIV = false := by
  decide

/-- C2 (amended): the well-formed `BinExpr` operator tags are exactly the
claimed set together with real division `FDIV` ('/'). -/
theorem binexpr_ops_amended (o : BinOp) :
    o.wellFormed = true ↔ (o.inClaimedSet = true ∨ o = BinOp.FDIV) := by
  cases o <;> simp [BinOp.wellFormed, BinOp.inClaimedSet]

/-- C3: when the resolver accepts a pointer (`resolveType(Pointer p)`), the
dereferenced pointed-to type is a `Record` or an `Array`; when the resolved
target is anything else, it reports `pointer-base-illegal`. -/
theorem pointer_base_record_or_array (env : List (String × TyExpr)) (fuel : Nat)
    (pointee r : TyExpr) :
    (resolvePointerTo env fuel pointee = .ok r → r.isRecordOrArray = true) ∧
    (derefed env fuel pointee = some r → r.isRecordOrArray = false →
      resolvePointerTo env fuel pointee = .error .pointerBaseIllegal) := by
  constructor
  · intro h
    cases hd : derefed env fuel pointee with
    | none => simp [resolvePointerTo, hd] at h
    | some t =>
      simp only [resolvePointerTo, hd] at h
      by_cases hra : t.isRecordOrArray = true
      · rw [if_pos hra] at h
        injection h with h2
        subst h2
        exact hra
      · rw [if_neg hra] at h
        exact absurd h (by simp)
  · intro hd hra
    simp only [resolvePointerTo, hd]
    rw [if_neg (by simp [hra])]

/-- C3 (witness): a pointer to a record resolves and its target is
structured; a pointer whose target resolves to the primitive `ANY` is
reported `pointer-base-illegal`. -/
theorem pointer_base_record_or_array_witness :
    (TyExpr.record []).isRecordOrArray = true ∧
    resolvePointerTo [] 1 (TyExpr.base .ANY) = .error .pointerBaseIllegal := by
  constructor
  · exact (pointer_base_record_or_array [] 1 (.record []) (.record [])).1 (by rfl)
  · exact (pointer_base_record_or_array [] 1 (.base .ANY) (.base .ANY)).2 (by rfl) (by rfl)

/-- C4: `Scope::add(n)` fails exactly when an entity of the same name is
already present at the same scope level; on success the scope's name map
binds `n.d_name` to `n` and a non-recursive `find(n.d_name)` returns `n`. -/
theorem scope_add_spec (s : ScopeM) (n : NamedM) :
    (s.add n = none ↔ (s.lookupName n.d_name).isSome = true) ∧
    (∀ s', s.add n = some s' →
      s'.lookupName n.d_name = some n ∧ findInChain [s'] n.d_name false = some n) := by
  constructor
  · unfold ScopeM.add
    split <;> simp_all
  · intro s' h
    unfold ScopeM.add at h
    split at h
    · exact absurd h (by simp)
    · cases h
      constructor
      · simp [ScopeM.lookupName, List.lookup]
      · simp [findInChain, ScopeM.lookupName, List.lookup]

/-- C4 (witness): adding `x` to an empty scope succeeds and a subsequent
non-recursive find returns it; after that, adding another entity named `x`
fails. -/
theorem scope_add_spec_witness :
    (ScopeM.lookupName ⟨[("x", ⟨"x", 0, .intT⟩)]⟩ "x" = some ⟨"x", 0, .intT⟩ ∧
      findInChain [⟨[("x", ⟨"x", 0, .intT⟩)]⟩] "x" false = some ⟨"x", 0, .intT⟩) ∧
    ScopeM.add ⟨[("x", ⟨"x", 0, .intT⟩)]⟩ ⟨"x", 1, .intT⟩ = none := by
  constructor
  · exact (scope_add_spec ⟨[]⟩ ⟨"x", 0, .intT⟩).2 ⟨[("x", ⟨"x", 0, .intT⟩)]⟩ (by rfl)
  · exact ((scope_add_spec ⟨[("x", ⟨"x", 0, .intT⟩)]⟩ ⟨"x", 1, .intT⟩).1).2 (by rfl)

/-- C5: an absent `FOR` step expression defaults the step value to +1, and a
step expression that is a compile-time integer constant equal to zero is
reported `for-step-zero`, never silently treated as +1. -/
theorem forloop_step_spec (e : ExprM) :
    checkForStep none = .stepVal 1 ∧
    (evalConstInt e = some 0 →
      checkForStep (some e) = .errForStepZero ∧
      checkForStep (some e) ≠ .stepVal 1) := by
  refine ⟨rfl, fun h => ?_⟩
  simp [checkForStep, h]

/-- C5 (witness): with the literal step `0`, checking reports
`for-step-zero` and does not yield step +1. -/
theorem forloop_step_spec_witness :
    checkForStep none = .stepVal 1 ∧
    (checkForStep (some (.literal 0)) = .errForStepZero ∧
      checkForStep (some (.literal 0)) ≠ .stepVal 1) :=
  ⟨(forloop_step_spec (.literal 0)).1, (forloop_step_spec (.literal 0)).2 rfl⟩

/-- C6: the primitive base-type kinds are exactly the fourteen listed —
pairwise distinct, complete, numbered 0..13 in enum order — and a
`BaseType` node constructed with any of them stores exactly that kind tag,
which therefore lies among the fourteen codes. -/
theorem basetype_kinds_exactly_fourteen :
    baseKindList.length = 14 ∧ baseKindList.Nodup ∧
    (∀ k : BaseKind, k ∈ baseKindList) ∧
    baseKindList.map BaseKind.toCode = List.range 14 ∧
    (∀ k : BaseKind, (mkBaseType k.toCode).d_type = k.toCode ∧
      (mkBaseType k.toCode).d_type ∈ baseKindList.map BaseKind.toCode) := by
  refine ⟨by decide, by decide, fun k => ?_, by decide, fun k => ?_⟩
  · cases k <;> decide
  · cases k <;> exact ⟨by decide, by decide⟩

/-- C7: a default-constructed `Array` is open (`d_len = 0`); after a
successful resolution, `d_len = 0` exactly when the array is open (has no
length expression) and a fixed-length array has `d_len ≥ 1`; a fixed-length
declaration whose length expression is not a compile-time constant integer
≥ 1 is reported `array-length-error`. -/
theorem array_open_iff_len_zero (a a' : ArrayM) (e : ExprM) :
    ArrayM.default.d_len = 0 ∧
    (resolveArray a = .ok a' →
      ((a'.d_len = 0 ↔ a.d_lenExpr = none) ∧
        (a.d_lenExpr ≠ none → 1 ≤ a'.d_len))) ∧
    (a.d_lenExpr = some e → evalConstInt e = none →
      resolveArray a = .error .arrayLengthError) ∧
    (∀ v : Int, a.d_lenExpr = some e → evalConstInt e = some v → v < 1 →
      resolveArray a = .error .arrayLengthError) := by
  refine ⟨rfl, fun h => ?_, fun he hv => ?_, fun v he hv hlt => ?_⟩
  · cases hl : a.d_lenExpr with
    | none =>
      simp only [resolveArray, hl] at h
      injection h with h2
      subst h2
      simp [hl]
    | some e' =>
      simp only [resolveArray, hl] at h
      cases hc : evalConstInt e' with
      | none => simp only [hc] at h; exact absurd h (by simp)
      | some v =>
        simp only [hc] at h
        by_cases h1 : 1 ≤ v
        · rw [if_pos h1] at h
          injection h with h2
          subst h2
          refine ⟨⟨fun h0 => ?_, fun h0 => ?_⟩, fun _ => ?_⟩
          · exfalso
            simp at h0
            omega
          · exact absurd h0 (by simp)
          · simp
            omega
        · rw [if_neg h1] at h
          exact absurd h (by simp)
  · simp only [resolveArray, he, hv]
  · simp only [resolveArray, he, hv]
    rw [if_neg (by omega)]

/-- C7 (witness): the default array resolves open with length 0; a
fixed-length array with constant length 3 resolves to `d_len = 3 ≥ 1`; the
length expressions `0` and a free identifier are `array-length-error`. -/
theorem array_open_iff_len_zero_witness :
    ArrayM.default.d_len = 0 ∧
    ((0 : Nat) = 0 ↔ (ArrayM.mk 7 none).d_lenExpr = none) ∧
    (1 ≤ (ArrayM.mk 3 (some (.literal 3))).d_len) ∧
    resolveArray ⟨0, some (.identLeaf "n")⟩ = .error .arrayLengthError ∧
    resolveArray ⟨0, some (.literal 0)⟩ = .error .arrayLengthError := by
  refine ⟨(array_open_iff_len_zero ⟨0, none⟩ ⟨0, none⟩ (.literal 0)).1, ?_, ?_, ?_, ?_⟩
  · exact ((array_open_iff_len_zero ⟨7, none⟩ ⟨0, none⟩ (.literal 0)).2.1 (by rfl)).1
  · exact ((array_open_iff_len_zero ⟨0, some (.literal 3)⟩ ⟨3, some (.literal 3)⟩
      (.literal 3)).2.1 (by rfl)).2 (by simp)
  · exact (array_open_iff_len_zero ⟨0, some (.identLeaf "n")⟩ ⟨0, none⟩
      (.identLeaf "n")).2.2.1 rfl rfl
  · exact (array_open_iff_len_zero ⟨0, some (.literal 0)⟩ ⟨0, none⟩
      (.literal 0)).2.2.2 0 rfl rfl (by norm_num)

/-- C8: set literal values are 32-bit bitsets (`SET_BIT_LEN = 32`), so no
element at or above bit 32 is representable: membership of any such element
is false in every set value. -/
theorem set_literal_elements_below_32 (s : SetVal) (i : Nat) (h : SET_BIT_LEN ≤ i) :
    SET_BIT_LEN = 32 ∧ s.mem i = false := by
  refine ⟨rfl, ?_⟩
  have hlt : s.val < 2 ^ i :=
    lt_of_lt_of_le s.isLt (Nat.pow_le_pow_right (by norm_num) h)
  exact Nat.testBit_eq_false_of_lt hlt

/-- C8 (witness): bit 32 of the set value 5 is not set. -/
theorem set_literal_elements_below_32_witness :
    SET_BIT_LEN = 32 ∧ SetVal.mem ⟨5, by norm_num [SET_BIT_LEN]⟩ 32 = false :=
  set_literal_elements_below_32 ⟨5, by norm_num [SET_BIT_LEN]⟩ 32 (by norm_num [SET_BIT_LEN])

/-- C9: `Parameter::isVarParam` is true exactly for by-reference or
by-const-reference parameters; the receiver flag never influences it; every
non-`Parameter` named entity answers false. -/
theorem isvarparam_spec (n : NamedEntity) (p : ParameterM) :
    (n.isVarParam = true ↔
      ∃ q : ParameterM, n = .parameter q ∧ (q.d_var || q.d_const) = true) ∧
    (p.isVarParam = (p.d_var || p.d_const)) ∧
    (ParameterM.isVarParam ⟨false, false, true⟩ = false) ∧
    (∀ r r' : Bool, ParameterM.isVarParam ⟨p.d_var, p.d_const, r⟩ =
      ParameterM.isVarParam ⟨p.d_var, p.d_const, r'⟩) := by
  refine ⟨?_, rfl, rfl, fun r r' => rfl⟩
  cases n <;> simp [NamedEntity.isVarParam, ParameterM.isVarParam]

/-- C10: `ObsFiles_setPos` returns false when the buffer is absent; a
negative requested position behaves exactly like position 0 (clamped before
seeking); with a buffer present it returns true exactly when the clamped
position is seekable (at most the buffer size). -/
theorem obsfiles_setpos_spec (b : QBufferM) (pos : Int) :
    ObsFiles_setPos none pos = (false, none) ∧
    ObsFiles_setPos (some b) pos = ObsFiles_setPos (some b) (max pos 0) ∧
    ((ObsFiles_setPos (some b) pos).1 = true ↔ max pos 0 ≤ (b.size : Int)) := by
  refine ⟨rfl, ?_, ?_⟩
  · by_cases h : pos < 0
    · simp only [ObsFiles_setPos, if_pos h]
      rw [max_eq_right (le_of_lt h), if_neg (by omega)]
    · simp only [ObsFiles_setPos, if_neg h]
      rw [max_eq_left (by omega), if_neg h]
  · by_cases h : pos < 0
    · simp only [ObsFiles_setPos, QBufferM.seek, if_pos h]
      rw [max_eq_right (le_of_lt h)]
      by_cases hs : (0 : Int) ≤ b.size
      · rw [if_pos ⟨le_refl 0, hs⟩]
        simp [hs]
      · exact absurd (Int.ofNat_nonneg b.size) hs
    · simp only [ObsFiles_setPos, QBufferM.seek, if_neg h]
      rw [max_eq_left (by omega)]
      by_cases hs : pos ≤ (b.size : Int)
      · rw [if_pos ⟨by omega, hs⟩]
        simp [hs]
      · rw [if_neg (by tauto)]
        simp [hs]

end Obx
